import Mathlib

/-!
Verification of the style-attribute composition pipeline of
`packages/block-editor/src/hooks/style.js`.

JavaScript objects are embedded as ordered association lists
(`List (String × _)`) with the insertion/overwrite semantics of JS
property assignment and object spread.  Scalars (strings, numbers,
booleans) are the leaf values; nested style configurations are nodes.
-/

namespace StyleHooks

/-- A JS scalar value that can appear as a leaf of a style configuration. -/
inductive Scalar where
  | str (s : String)
  | num (n : Int)
  | boolean (b : Bool)
deriving Repr, DecidableEq

/-- A value in a style configuration: a leaf scalar (for which lodash
`isObject` is false) or a nested object (a list of entries). -/
inductive StyleValue where
  | leaf (v : Scalar)
  | node (children : List (String × StyleValue))

/-- A JS object whose values are style values, as an ordered entry list. -/
abbrev Obj := List (String × StyleValue)

/-- Whether object `m` has key `k` among its entries. -/
def containsKey (m : List (String × α)) (k : String) : Bool :=
  m.any (fun p => decide (p.1 = k))

/-- JS property read `m[k]`: the value at the first entry with key `k`. -/
def objGet (m : List (String × α)) (k : String) : Option α :=
  (m.find? (fun p => decide (p.1 = k))).map (fun p => p.2)

/-- JS property assignment `m[k] = v`: overwrite in place if the key is
present (keeping its position), otherwise append a new entry. -/
def objSet (m : List (String × α)) (k : String) (v : α) : List (String × α) :=
  if containsKey m k then m.map (fun p => if p.1 = k then (k, v) else p)
  else m ++ [(k, v)]

/-- JS object spread `{...base, ...updates}`: assign every entry of
`updates` into `base` in order, later entries overriding. -/
def objMerge (base updates : List (String × α)) : List (String × α) :=
  updates.foldl (fun acc p => objSet acc p.1 p.2) base

/-- lodash `mapKeys(m, f)`: build a fresh object whose entry for `(k, v)`
in `m` is keyed `f k`, later collisions overriding. -/
def mapKeys (m : List (String × α)) (f : String → String) : List (String × α) :=
  m.foldl (fun acc p => objSet acc (f p.1) p.2) []

/-- Modelled from the spec: lodash `kebabCase` (an external dependency of
the repository, not part of its sources), restricted to the camelCase
identifiers the pipeline feeds it — "lowercase, dash-separated": every
uppercase letter becomes a dash followed by its lowercase form. -/
def kebabCase (s : String) : String :=
  String.mk (s.data.foldr
    (fun c acc => if c.isUpper then '-' :: c.toLower :: acc else c :: acc) [])

/-- The inner `getNestedCSSVariables` closure of `getCSSVariables`,
with the mutable `result` object made an explicit accumulator: a leaf at
key `key` is assigned under `kebabCase key`; a nested object is flattened
recursively and spread into the accumulator with every sub-key prefixed
by `kebabCase key ++ "--"`. -/
def getNestedCSSVariables : Obj → Obj → Obj
  | result, [] => result
  | result, (key, StyleValue.leaf v) :: rest =>
      getNestedCSSVariables (objSet result (kebabCase key) (StyleValue.leaf v)) rest
  | result, (key, StyleValue.node children) :: rest =>
      getNestedCSSVariables
        (objMerge result
          (mapKeys (getNestedCSSVariables [] children)
            (fun subkey => kebabCase key ++ "--" ++ subkey)))
        rest
termination_by _ config => sizeOf config
decreasing_by all_goals (simp; try omega)

/-- `getCSSVariables(styles)`: flatten the nested config and prefix every
top-level key with `'--wp' + '--'`. -/
def getCSSVariables (styles : Obj) : Obj :=
  mapKeys (getNestedCSSVariables [] styles) (fun key => "--wp" ++ "--" ++ key)

/-- The JS default parameter `styles = {}`: an `undefined` argument is
replaced by the empty config. -/
def getCSSVariablesOpt (styles : Option Obj) : Obj :=
  getCSSVariables (styles.getD [])

/-- lodash `get` along a two-segment path, as used by `getInlineStyles`. -/
def getPath2 (styles : Obj) (k1 k2 : String) : Option StyleValue :=
  match objGet styles k1 with
  | some (StyleValue.node children) => objGet children k2
  | _ => none

/-- The fixed `mappings` table of `getInlineStyles`, in declaration order:
output property name paired with its two-segment source path. -/
def inlineStyleMappings : List (String × String × String) :=
  [("lineHeight", "typography", "lineHeight"),
   ("backgroundColor", "color", "background"),
   ("color", "color", "text")]

/-- `getInlineStyles(styles)`: for each mapping in order, if the source
path exists (lodash `has`) copy its value (lodash `get`) under the output
name.  In this embedding `has` holds exactly when `getPath2` is `some`,
so the guard-then-read pair collapses to one `Option` match. -/
def getInlineStyles (styles : Obj) : Obj :=
  inlineStyleMappings.foldl
    (fun output m =>
      match getPath2 styles m.2.1 m.2.2 with
      | some v => objSet output m.1 v
      | none => output)
    []

/-- The JS default parameter `styles = {}` of `getInlineStyles`. -/
def getInlineStylesOpt (styles : Option Obj) : Obj :=
  getInlineStyles (styles.getD [])

/-- An attribute declaration in a block type's `attributes` map; the
pipeline only ever writes and inspects its declared `type` string. -/
structure AttrDef where
  type : String
deriving Repr, DecidableEq

/-- A block instance's attribute values; the pipeline only destructures
the optional `style` attribute (`const { style } = attributes`), so the
remaining attributes are kept as an opaque entry list. -/
structure BlockAttributes where
  style : Option Obj
  rest : List (String × StyleValue)

/-- The prop bag flowing through the save/edit-wrapper filters: the
optional `style` field the pipeline writes, and every other field. -/
structure Props where
  style : Option Obj
  other : List (String × StyleValue)

/-- The empty prop bag `{}`. -/
def emptyProps : Props := { style := none, other := [] }

/-- Modelled from the spec: the value of `COLOR_SUPPORT_KEY`, imported
from `./color` which is not among the sources; any fixed name works. -/
def COLOR_SUPPORT_KEY : String := "color"

/-- Modelled from the spec: the value of `LINE_HEIGHT_SUPPRT_KEY`
(spelling as in the source), imported from `./line-height` which is not
among the sources; any fixed name distinct from the color key works. -/
def LINE_HEIGHT_SUPPRT_KEY : String := "lineHeight"

/-- The fixed list of style-related capability keys. -/
def styleSupportKeys : List String := [COLOR_SUPPORT_KEY, LINE_HEIGHT_SUPPRT_KEY]

/-- A block type descriptor: the capability keys it declares support
for, its attribute declarations, and its optional edit-wrapper-props
callback.  The callback takes the ambient global-styles flag explicitly,
since it is sampled when the callback runs, not when it is installed. -/
structure BlockType where
  supports : List String
  attributes : List (String × AttrDef)
  getEditWrapperProps : Option (Bool → BlockAttributes → Props)

/-- Modelled from the spec: `hasBlockSupport` from `@wordpress/blocks`
(an external dependency) — whether the block type declares support for
the named capability. -/
def hasBlockSupport (blockType : BlockType) (key : String) : Bool :=
  blockType.supports.contains key

/-- `hasStyleSupport`: the block type supports at least one of the
style capability keys. -/
def hasStyleSupport (blockType : BlockType) : Bool :=
  styleSupportKeys.any (fun key => hasBlockSupport blockType key)

/-- `addAttribute(settings)`: with style support, declare a `style`
attribute of type `"object"` unless one is already declared. -/
def addAttribute (settings : BlockType) : BlockType :=
  if ¬ hasStyleSupport settings then settings
  else if containsKey settings.attributes "style" then settings
  else { settings with
          attributes := settings.attributes ++ [("style", { type := "object" })] }

/-- `addSaveProps(props, blockType, attributes)`.  The `globalStyles`
argument models the ambient `window.__unstableSupportsGlobalStyles`
flag read by `hasGlobalStylesSupport()` at this call.  The JS spread
`props.style = {...computed, ...props.style}` merges the existing
`style` entries (none when the field is `undefined`) over the computed
ones. -/
def addSaveProps (props : Props) (blockType : BlockType)
    (attributes : BlockAttributes) (globalStyles : Bool) : Props :=
  if ¬ hasStyleSupport blockType then props
  else if globalStyles then
    { props with
      style :=
        some (objMerge (getCSSVariablesOpt attributes.style) (props.style.getD [])) }
  else
    { props with
      style :=
        some (objMerge (getInlineStylesOpt attributes.style) (props.style.getD [])) }

/-- Run a block type's edit-wrapper-props callback the way the wrapper
installed by `addEditProps` does: `let props = {}` then overwrite with
the callback's result when a callback exists. -/
def invokeEditWrapperProps (settings : BlockType) (globalStyles : Bool)
    (attributes : BlockAttributes) : Props :=
  match settings.getEditWrapperProps with
  | some f => f globalStyles attributes
  | none => emptyProps

/-- `addEditProps(settings)`: with style support, replace
`getEditWrapperProps` by a wrapper that feeds the prior callback's
result (or the empty bag) through `addSaveProps`.  The closure passes
the pre-update `settings` to `addSaveProps`, which only reads its
`supports` — the field the update leaves untouched — so this matches the
JS in-place mutation observably. -/
def addEditProps (settings : BlockType) : BlockType :=
  if ¬ hasStyleSupport settings then settings
  else
    { settings with
      getEditWrapperProps :=
        some (fun globalStyles attributes =>
          addSaveProps (invokeEditWrapperProps settings globalStyles attributes)
            settings attributes globalStyles) }

/-- The style object `addSaveProps` computes from a style attribute:
flattened CSS variables in global-styles mode, inline styles otherwise. -/
def computedStyle (globalStyles : Bool) (style : Option Obj) : Obj :=
  if globalStyles then getCSSVariablesOpt style else getInlineStylesOpt style

/-- Left-biased choice on options, the lookup semantics of a JS spread
`{...fallback, ...preferred}`. -/
def optOr : Option α → Option α → Option α
  | some v, _ => some v
  | none, b => b

/-- The keys of an object, in entry order. -/
def keys (m : List (String × α)) : List String := m.map Prod.fst

/-- The entries contributed by one optional property: one entry when the
value is present, none when it is absent. -/
def optEntry (k : String) : Option StyleValue → Obj
  | some v => [(k, v)]
  | none => []

/-- Whether a style configuration is flat: every value is a leaf. -/
def isFlat (c : Obj) : Bool :=
  c.all (fun p => match p.2 with | StyleValue.leaf _ => true | _ => false)

/-- Whether a style configuration has pairwise-distinct keys at every
nesting level. -/
def configKeysDistinct : Obj → Bool
  | [] => true
  | (k, StyleValue.leaf _) :: rest =>
      !containsKey rest k && configKeysDistinct rest
  | (k, StyleValue.node children) :: rest =>
      !containsKey rest k && configKeysDistinct children && configKeysDistinct rest
termination_by c => sizeOf c
decreasing_by all_goals (simp; try omega)

/-! ### Lemmas about the JS-object operations -/

theorem containsKey_iff (m : List (String × α)) (k : String) :
    containsKey m k = true ↔ k ∈ keys m := by
  simp [containsKey, keys, List.any_eq_true]

theorem objGet_cons (p : String × α) (l : List (String × α)) (k : String) :
    objGet (p :: l) k = if p.1 = k then some p.2 else objGet l k := by
  by_cases h : p.1 = k
  · rw [objGet, List.find?_cons_of_pos l (by simp [h]), if_pos h]
    rfl
  · rw [objGet, List.find?_cons_of_neg l (by simp [h]), if_neg h]
    rfl

theorem objGet_eq_none_iff (m : List (String × α)) (k : String) :
    objGet m k = none ↔ ¬ k ∈ keys m := by
  simp only [objGet, Option.map_eq_none', List.find?_eq_none, keys,
    List.mem_map, decide_eq_true_eq]
  constructor
  · rintro h ⟨p, hp, he⟩
    exact h p hp he
  · rintro h p hp he
    exact h ⟨p, hp, he⟩

theorem objSet_of_not_contains (m : List (String × α)) (k : String) (v : α)
    (h : containsKey m k = false) : objSet m k v = m ++ [(k, v)] := by
  simp [objSet, h]

theorem objSet_cons_ne (p : String × α) (rest : List (String × α))
    (k : String) (v : α) (h : p.1 ≠ k) :
    objSet (p :: rest) k v = p :: objSet rest k v := by
  have hck : containsKey (p :: rest) k = containsKey rest k := by
    simp [containsKey, List.any_cons, h]
  cases hc : containsKey rest k with
  | true => simp [objSet, hck, hc, h]
  | false => simp [objSet, hck, hc, h]

theorem keys_objSet (m : List (String × α)) (k : String) (v : α) :
    keys (objSet m k v) = if containsKey m k then keys m else keys m ++ [k] := by
  by_cases h : containsKey m k = true
  · simp only [objSet, h, if_true, keys, List.map_map]
    apply List.map_congr_left
    intro p _
    by_cases hk : p.1 = k
    · simp [Function.comp, hk]
    · simp [Function.comp, hk]
  · simp only [Bool.not_eq_true] at h
    simp [objSet, h, keys]

theorem keys_objSet_nodup (m : List (String × α)) (k : String) (v : α)
    (h : (keys m).Nodup) : (keys (objSet m k v)).Nodup := by
  rw [keys_objSet]
  by_cases hc : containsKey m k = true
  · simp [hc, h]
  · simp only [Bool.not_eq_true] at hc
    have hk : ¬ k ∈ keys m := fun hm => by simp [(containsKey_iff m k).mpr hm] at hc
    simp [hc, List.nodup_append, h, hk]

theorem objGet_map_set_ne (m : List (String × α)) (k k' : String) (v : α)
    (h : k' ≠ k) :
    objGet (m.map (fun p => if p.1 = k then (k, v) else p)) k' = objGet m k' := by
  induction m with
  | nil => simp [objGet]
  | cons p rest ih =>
    by_cases hp : p.1 = k
    · rw [List.map_cons, if_pos hp, objGet_cons, objGet_cons]
      simp only [hp, Ne.symm h, if_false]
      rw [ih]
    · rw [List.map_cons, if_neg hp, objGet_cons, objGet_cons, ih]

theorem objGet_objSet (m : List (String × α)) (k k' : String) (v : α) :
    objGet (objSet m k v) k' = if k' = k then some v else objGet m k' := by
  induction m with
  | nil =>
    have : containsKey ([] : List (String × α)) k = false := by
      simp [containsKey]
    rw [objSet, this]
    simp only [Bool.false_eq_true, if_false, List.nil_append, objGet_cons]
    by_cases hk : k' = k
    · simp [hk]
    · simp [Ne.symm hk, hk, objGet]
  | cons p rest ih =>
    by_cases hp : p.1 = k
    · have hcont : containsKey (p :: rest) k = true := by
        simp [containsKey, List.any_cons, hp]
      rw [objSet, hcont]
      simp only [if_true, List.map_cons, if_pos hp, objGet_cons]
      by_cases hk : k' = k
      · simp [hk]
      · simp only [Ne.symm hk, if_false, hk]
        have hpk' : p.1 ≠ k' := by rw [hp]; exact Ne.symm hk
        rw [if_neg hpk']
        exact objGet_map_set_ne rest k k' v hk
    · rw [objSet_cons_ne p rest k v hp, objGet_cons, objGet_cons, ih]
      by_cases hq : p.1 = k'
      · have : k' ≠ k := fun h => hp (hq.trans h)
        simp [hq, this]
      · simp [hq]

theorem objMerge_nil (base : List (String × α)) : objMerge base [] = base := rfl

theorem objMerge_cons (base : List (String × α)) (p : String × α)
    (u : List (String × α)) :
    objMerge base (p :: u) = objMerge (objSet base p.1 p.2) u := rfl

theorem objGet_objMerge (base u : List (String × α)) (k : String)
    (hu : (keys u).Nodup) :
    objGet (objMerge base u) k = optOr (objGet u k) (objGet base k) := by
  induction u generalizing base with
  | nil => simp [objMerge, optOr, objGet]
  | cons p rest ih =>
    have hrest : (keys rest).Nodup := by
      simpa [keys] using hu.of_cons
    have hp_notin : ¬ p.1 ∈ keys rest := by
      have := hu
      simp only [keys, List.map_cons, List.nodup_cons] at this
      exact fun hm => this.1 (by simpa [keys] using hm)
    rw [objMerge_cons, ih _ hrest, objGet_cons]
    by_cases hk : p.1 = k
    · subst hk
      have : objGet rest p.1 = none := (objGet_eq_none_iff rest p.1).mpr hp_notin
      simp [this, optOr, objGet_objSet]
    · rw [if_neg hk, objGet_objSet]
      simp [Ne.symm hk]

theorem foldl_objSet_nodup (f : String → String) (m acc : List (String × α))
    (h : (keys acc).Nodup) :
    (keys (m.foldl (fun a p => objSet a (f p.1) p.2) acc)).Nodup := by
  induction m generalizing acc with
  | nil => simpa
  | cons p rest ih =>
    rw [List.foldl_cons]
    exact ih _ (keys_objSet_nodup _ _ _ h)

theorem mapKeys_keys_nodup (m : List (String × α)) (f : String → String) :
    (keys (mapKeys m f)).Nodup :=
  foldl_objSet_nodup f m [] (by simp [keys])

theorem objMerge_keys_nodup (base u : List (String × α))
    (h : (keys base).Nodup) : (keys (objMerge base u)).Nodup :=
  foldl_objSet_nodup id u base h

theorem foldl_objSet_append (f : String → String) (m acc : List (String × α))
    (h : (keys acc ++ m.map (fun p => f p.1)).Nodup) :
    m.foldl (fun a p => objSet a (f p.1) p.2) acc
      = acc ++ m.map (fun p => (f p.1, p.2)) := by
  induction m generalizing acc with
  | nil => simp
  | cons p rest ih =>
    have hnotin : ¬ f p.1 ∈ keys acc := by
      rw [List.nodup_append] at h
      exact fun hm => h.2.2 hm (by simp)
    have hset : objSet acc (f p.1) p.2 = acc ++ [(f p.1, p.2)] := by
      refine objSet_of_not_contains _ _ _ ?_
      cases hc : containsKey acc (f p.1) with
      | false => rfl
      | true => exact absurd ((containsKey_iff _ _).mp hc) hnotin
    rw [List.foldl_cons, hset, ih]
    · simp
    · have : keys (acc ++ [(f p.1, p.2)]) = keys acc ++ [f p.1] := by simp [keys]
      rw [this, List.append_assoc]
      simpa using h

theorem mapKeys_eq_map (m : List (String × α)) (f : String → String)
    (h : (m.map (fun p => f p.1)).Nodup) :
    mapKeys m f = m.map (fun p => (f p.1, p.2)) := by
  have := foldl_objSet_append f m [] (by simpa [keys])
  simpa [mapKeys] using this

theorem objMerge_eq_append (base u : List (String × α))
    (h : (keys base ++ keys u).Nodup) :
    objMerge base u = base ++ u := by
  have := foldl_objSet_append id u base (by simpa [keys])
  simpa [objMerge] using this

theorem keys_foldl_objSet_subset (f : String → String)
    (m acc : List (String × α)) (k : String)
    (hk : k ∈ keys (m.foldl (fun a p => objSet a (f p.1) p.2) acc)) :
    k ∈ keys acc ∨ ∃ r, k = f r := by
  induction m generalizing acc with
  | nil => exact Or.inl hk
  | cons p rest ih =>
    rw [List.foldl_cons] at hk
    rcases ih _ hk with hin | hr
    · rw [keys_objSet] at hin
      by_cases hc : containsKey acc (f p.1) = true
      · rw [if_pos hc] at hin
        exact Or.inl hin
      · simp only [Bool.not_eq_true] at hc
        rw [hc] at hin
        simp only [Bool.false_eq_true, if_false, List.mem_append,
          List.mem_singleton] at hin
        rcases hin with hin | hin
        · exact Or.inl hin
        · exact Or.inr ⟨p.1, hin⟩
    · exact Or.inr hr

theorem append_left_injective (p : String) (a b : String)
    (h : p ++ a = p ++ b) : a = b := by
  have hd : p.data ++ a.data = p.data ++ b.data := by
    have := congrArg String.data h
    simpa [String.data_append] using this
  exact String.ext (List.append_cancel_left hd)

/-! ### Lemmas about the flattening pipeline -/

theorem getNestedCSSVariables_nodup (config result : Obj)
    (h : (keys result).Nodup) :
    (keys (getNestedCSSVariables result config)).Nodup := by
  induction config generalizing result with
  | nil => simpa [getNestedCSSVariables]
  | cons p rest ih =>
    rcases p with ⟨k, v⟩
    cases v with
    | leaf s =>
      rw [getNestedCSSVariables]
      exact ih _ (keys_objSet_nodup _ _ _ h)
    | node children =>
      rw [getNestedCSSVariables]
      exact ih _ (objMerge_keys_nodup _ _ h)

theorem getCSSVariables_keys_nodup (styles : Obj) :
    (keys (getCSSVariables styles)).Nodup :=
  mapKeys_keys_nodup _ _

theorem getNestedCSSVariables_singleton_node (k : String) (children : Obj) :
    getNestedCSSVariables [] [(k, StyleValue.node children)]
      = (getNestedCSSVariables [] children).map
          (fun p => (kebabCase k ++ "--" ++ p.1, p.2)) := by
  rw [getNestedCSSVariables, getNestedCSSVariables]
  have hinner : (keys (mapKeys (getNestedCSSVariables [] children)
      (fun subkey => kebabCase k ++ "--" ++ subkey))).Nodup :=
    mapKeys_keys_nodup _ _
  rw [objMerge_eq_append [] _ (by simpa [keys] using hinner), List.nil_append]
  apply mapKeys_eq_map
  have hch : (keys (getNestedCSSVariables [] children)).Nodup :=
    getNestedCSSVariables_nodup children [] (by simp [keys])
  have heq : (getNestedCSSVariables [] children).map
      (fun p => kebabCase k ++ "--" ++ p.1)
      = (keys (getNestedCSSVariables [] children)).map
          (fun s => kebabCase k ++ "--" ++ s) := by
    rw [keys, List.map_map]
    rfl
  rw [heq]
  refine List.Nodup.map ?_ hch
  intro a b hab
  exact append_left_injective (kebabCase k ++ "--") a b hab

theorem getNestedCSSVariables_flat (config result : Obj)
    (hf : isFlat config = true) :
    getNestedCSSVariables result config
      = config.foldl (fun a p => objSet a (kebabCase p.1) p.2) result := by
  induction config generalizing result with
  | nil => rw [getNestedCSSVariables, List.foldl_nil]
  | cons p rest ih =>
    rcases p with ⟨k, v⟩
    cases v with
    | leaf s =>
      rw [getNestedCSSVariables, List.foldl_cons]
      refine ih _ ?_
      simp only [isFlat, List.all_cons, Bool.and_eq_true] at hf
      exact hf.2
    | node children =>
      exact absurd hf (by simp [isFlat])

theorem getCSSVariables_flat (config : Obj)
    (hf : isFlat config = true)
    (hk : (config.map (fun p => kebabCase p.1)).Nodup) :
    getCSSVariables config
      = config.map (fun p => ("--wp" ++ "--" ++ kebabCase p.1, p.2)) := by
  rw [getCSSVariables, getNestedCSSVariables_flat config [] hf]
  rw [foldl_objSet_append kebabCase config [] (by simpa [keys] using hk),
    List.nil_append]
  rw [mapKeys_eq_map]
  · rw [List.map_map]
    apply List.map_congr_left
    intro p _
    rfl
  · have heq : (config.map (fun p => (kebabCase p.1, p.2))).map
        (fun p => "--wp" ++ "--" ++ p.1)
        = (config.map (fun p => kebabCase p.1)).map
            (fun s => "--wp" ++ "--" ++ s) := by
      rw [List.map_map, List.map_map]
      rfl
    rw [heq]
    refine List.Nodup.map ?_ hk
    intro a b hab
    exact append_left_injective ("--wp" ++ "--") a b hab

theorem getInlineStyles_closed_form (styles : Obj) :
    getInlineStyles styles
      = optEntry "lineHeight" (getPath2 styles "typography" "lineHeight")
        ++ optEntry "backgroundColor" (getPath2 styles "color" "background")
        ++ optEntry "color" (getPath2 styles "color" "text") := by
  rw [getInlineStyles, inlineStyleMappings]
  cases h1 : getPath2 styles "typography" "lineHeight" <;>
  cases h2 : getPath2 styles "color" "background" <;>
  cases h3 : getPath2 styles "color" "text" <;>
    simp [List.foldl_cons, List.foldl_nil, h1, h2, h3, objSet, containsKey,
      optEntry]

theorem getInlineStyles_keys_nodup (styles : Obj) :
    (keys (getInlineStyles styles)).Nodup := by
  rw [getInlineStyles_closed_form]
  cases getPath2 styles "typography" "lineHeight" <;>
  cases getPath2 styles "color" "background" <;>
  cases getPath2 styles "color" "text" <;>
    simp [optEntry, keys]

/-! ### Lemmas about the filter callbacks -/

theorem addSaveProps_style (props : Props) (blockType : BlockType)
    (attributes : BlockAttributes) (g : Bool)
    (h : hasStyleSupport blockType = true) :
    (addSaveProps props blockType attributes g).style
      = some (objMerge (computedStyle g attributes.style)
          (props.style.getD [])) := by
  cases g <;> simp [addSaveProps, computedStyle, h]

theorem addSaveProps_other (props : Props) (blockType : BlockType)
    (attributes : BlockAttributes) (g : Bool) :
    (addSaveProps props blockType attributes g).other = props.other := by
  by_cases h : hasStyleSupport blockType = true
  · cases g <;> simp [addSaveProps, h]
  · simp only [Bool.not_eq_true] at h
    simp [addSaveProps, h]

theorem addSaveProps_no_support (props : Props) (blockType : BlockType)
    (attributes : BlockAttributes) (g : Bool)
    (h : hasStyleSupport blockType = false) :
    addSaveProps props blockType attributes g = props := by
  simp [addSaveProps, h]

theorem computedStyle_keys_nodup (g : Bool) (style : Option Obj) :
    (keys (computedStyle g style)).Nodup := by
  cases g
  · simpa [computedStyle, getInlineStylesOpt] using
      getInlineStyles_keys_nodup (style.getD [])
  · simpa [computedStyle, getCSSVariablesOpt] using
      getCSSVariables_keys_nodup (style.getD [])

theorem supports_addEditProps (s : BlockType) :
    (addEditProps s).supports = s.supports := by
  by_cases h : hasStyleSupport s = true
  · simp [addEditProps, h]
  · simp only [Bool.not_eq_true] at h
    simp [addEditProps, h]

theorem hasStyleSupport_addEditProps (s : BlockType) :
    hasStyleSupport (addEditProps s) = hasStyleSupport s := by
  simp [hasStyleSupport, hasBlockSupport, supports_addEditProps]

theorem supports_addAttribute (s : BlockType) :
    (addAttribute s).supports = s.supports := by
  by_cases h : hasStyleSupport s = true
  · by_cases hc : containsKey s.attributes "style" = true
    · simp [addAttribute, h, hc]
    · simp only [Bool.not_eq_true] at hc
      simp [addAttribute, h, hc]
  · simp only [Bool.not_eq_true] at h
    simp [addAttribute, h]

theorem hasStyleSupport_addAttribute (s : BlockType) :
    hasStyleSupport (addAttribute s) = hasStyleSupport s := by
  simp [hasStyleSupport, hasBlockSupport, supports_addAttribute]

theorem invoke_addEditProps (s : BlockType) (g : Bool)
    (attrs : BlockAttributes) (h : hasStyleSupport s = true) :
    invokeEditWrapperProps (addEditProps s) g attrs
      = addSaveProps (invokeEditWrapperProps s g attrs) s attrs g := by
  simp [addEditProps, h, invokeEditWrapperProps]

theorem optOr_absorb (x y : Option α) : optOr (optOr x y) y = optOr x y := by
  cases x <;> cases y <;> rfl

theorem addAttribute_no_support (s : BlockType)
    (h : hasStyleSupport s = false) : addAttribute s = s := by
  simp [addAttribute, h]

theorem addAttribute_keep (s : BlockType) (h : hasStyleSupport s = true)
    (hc : containsKey s.attributes "style" = true) : addAttribute s = s := by
  simp [addAttribute, h, hc]

theorem addAttribute_adds (s : BlockType) (h : hasStyleSupport s = true)
    (hc : containsKey s.attributes "style" = false) :
    (addAttribute s).attributes
      = s.attributes ++ [("style", { type := "object" })] := by
  simp [addAttribute, h, hc]

theorem mem_optEntry {p : String × StyleValue} {k : String}
    {o : Option StyleValue} (h : p ∈ optEntry k o) : p.1 = k := by
  cases o with
  | none => simp [optEntry] at h
  | some v =>
    simp only [optEntry, List.mem_singleton] at h
    rw [h]

/-! ### Claims -/

/-- Claim C1: `getCSSVariables` flattens by the claimed algorithm: a
container at key `K` is recursed into and every child entry re-keyed
under `kebab-case(K) ++ "--"`; a flat config (no nested containers, with
non-colliding kebab-cased keys) maps entry-wise to
`"--wp--" ++ kebab(k) ↦ v`; and the typography example flattens to
`--wp--typography--line-height ↦ "2"`. -/
theorem claim_C1_getCSSVariables_flattening :
    (∀ (k : String) (children : Obj),
        getNestedCSSVariables [] [(k, StyleValue.node children)]
          = (getNestedCSSVariables [] children).map
              (fun p => (kebabCase k ++ "--" ++ p.1, p.2)))
    ∧ (∀ config : Obj, isFlat config = true →
        (config.map (fun p => kebabCase p.1)).Nodup →
        getCSSVariables config
          = config.map (fun p => ("--wp" ++ "--" ++ kebabCase p.1, p.2)))
    ∧ getCSSVariables
        [("typography", StyleValue.node
            [("lineHeight", StyleValue.leaf (Scalar.str "2"))])]
        = [("--wp--typography--line-height", StyleValue.leaf (Scalar.str "2"))] := by
  refine ⟨getNestedCSSVariables_singleton_node, getCSSVariables_flat, ?_⟩
  simp only [getCSSVariables, getNestedCSSVariables]
  rfl

/-- Witness for C1 at a concrete flat config. -/
theorem claim_C1_witness :
    isFlat [("lineHeight", StyleValue.leaf (Scalar.str "3"))] = true
    ∧ ([("lineHeight", StyleValue.leaf (Scalar.str "3"))].map
        (fun p => kebabCase p.1)).Nodup
    ∧ getCSSVariables [("lineHeight", StyleValue.leaf (Scalar.str "3"))]
        = [("--wp" ++ "--" ++ kebabCase "lineHeight",
            StyleValue.leaf (Scalar.str "3"))] :=
  ⟨rfl, by decide,
    claim_C1_getCSSVariables_flattening.2.1 _ rfl (by decide)⟩

/-- Claim C4: `getInlineStyles` is exactly the three optional fixed
properties, in the mapping table's declaration order, each present — with
its value copied verbatim, falsy or not — exactly when its source path
exists; hence every output key is one of `lineHeight`, `backgroundColor`,
`color`. -/
theorem claim_C4_getInlineStyles_shape (styles : Obj) :
    getInlineStyles styles
      = optEntry "lineHeight" (getPath2 styles "typography" "lineHeight")
        ++ optEntry "backgroundColor" (getPath2 styles "color" "background")
        ++ optEntry "color" (getPath2 styles "color" "text")
    ∧ ∀ p ∈ getInlineStyles styles,
        p.1 = "lineHeight" ∨ p.1 = "backgroundColor" ∨ p.1 = "color" := by
  refine ⟨getInlineStyles_closed_form styles, ?_⟩
  intro p hp
  rw [getInlineStyles_closed_form styles] at hp
  rcases List.mem_append.mp hp with hp' | hc
  · rcases List.mem_append.mp hp' with ha | hb
    · exact Or.inl (mem_optEntry ha)
    · exact Or.inr (Or.inl (mem_optEntry hb))
  · exact Or.inr (Or.inr (mem_optEntry hc))

/-- Witness for C4 at a concrete config carrying a falsy leaf. -/
theorem claim_C4_witness :
    getInlineStyles [("color", StyleValue.node
        [("text", StyleValue.leaf (Scalar.str ""))])]
      = optEntry "lineHeight" (getPath2 [("color", StyleValue.node
            [("text", StyleValue.leaf (Scalar.str ""))])] "typography" "lineHeight")
        ++ optEntry "backgroundColor" (getPath2 [("color", StyleValue.node
            [("text", StyleValue.leaf (Scalar.str ""))])] "color" "background")
        ++ optEntry "color" (getPath2 [("color", StyleValue.node
            [("text", StyleValue.leaf (Scalar.str ""))])] "color" "text")
    ∧ (("color", StyleValue.leaf (Scalar.str "")).1 = "lineHeight"
        ∨ ("color", StyleValue.leaf (Scalar.str "")).1 = "backgroundColor"
        ∨ ("color", StyleValue.leaf (Scalar.str "")).1 = "color") :=
  ⟨(claim_C4_getInlineStyles_shape _).1,
    (claim_C4_getInlineStyles_shape _).2 _ (by
      rw [show getInlineStyles [("color", StyleValue.node
          [("text", StyleValue.leaf (Scalar.str ""))])]
          = [("color", StyleValue.leaf (Scalar.str ""))] from rfl]
      exact List.mem_singleton.mpr rfl)⟩

/-- Claim C7 counterexample: the config `{aB: 1, "a-b": 2}` has
pairwise-distinct keys at its one nesting level, yet both keys
kebab-case to `a-b`, so the flattened names collide and the second
assignment overwrites the first — last-write-wins overriding does
occur, refuting "unique by construction". -/
theorem claim_C7_counterexample :
    configKeysDistinct
        [("aB", StyleValue.leaf (Scalar.num 1)),
         ("a-b", StyleValue.leaf (Scalar.num 2))] = true
    ∧ kebabCase "aB" = kebabCase "a-b"
    ∧ getCSSVariables
        [("aB", StyleValue.leaf (Scalar.num 1)),
         ("a-b", StyleValue.leaf (Scalar.num 2))]
        = [("--wp--a-b", StyleValue.leaf (Scalar.num 2))] := by
  refine ⟨by simp [configKeysDistinct, containsKey], rfl, ?_⟩
  simp only [getCSSVariables, getNestedCSSVariables]
  rfl

/-- Claim C7 (amended): for every StyleConfig the mapping produced by
`getCSSVariables` has no duplicate keys — as an invariant of JS object
construction, not because flattened names are unique: distinct source
keys may kebab-collide, and then the later entry overrides the
earlier. -/
theorem claim_C7_output_keys_nodup (config : Obj) :
    (keys (getCSSVariables config)).Nodup :=
  getCSSVariables_keys_nodup config

/-- Claim C8: the empty config flattens to the empty mapping, and leaf
values — among them `false`, `0` and the empty string — are carried over
verbatim instead of being dropped. -/
theorem claim_C8_empty_and_falsy :
    getCSSVariables [] = []
    ∧ (∀ (k : String) (v : Scalar),
        getCSSVariables [(k, StyleValue.leaf v)]
          = [("--wp" ++ "--" ++ kebabCase k, StyleValue.leaf v)])
    ∧ getCSSVariables
        [("a", StyleValue.leaf (Scalar.boolean false)),
         ("b", StyleValue.leaf (Scalar.num 0)),
         ("c", StyleValue.leaf (Scalar.str ""))]
        = [("--wp--a", StyleValue.leaf (Scalar.boolean false)),
           ("--wp--b", StyleValue.leaf (Scalar.num 0)),
           ("--wp--c", StyleValue.leaf (Scalar.str ""))] := by
  refine ⟨?_, ?_, ?_⟩
  · simp only [getCSSVariables, getNestedCSSVariables]
    rfl
  · intro k v
    simp only [getCSSVariables, getNestedCSSVariables]
    simp [mapKeys, objSet, containsKey]
  · simp only [getCSSVariables, getNestedCSSVariables]
    rfl

/-- Claim C2: with style support, `addSaveProps` sets the prop bag's
`style` to the computed values overlaid by the pre-existing `style`
entries, so for every key an existing entry wins and a fresh computed
key is added; on the spec's example, the existing `color: "red"` beats
the computed `color: "blue"` while `lineHeight: "1.2"` is added. -/
theorem claim_C2_addSaveProps_precedence :
    (∀ (props : Props) (blockType : BlockType) (attributes : BlockAttributes)
        (g : Bool),
        hasStyleSupport blockType = true →
        (keys (props.style.getD [])).Nodup →
        (addSaveProps props blockType attributes g).style
          = some (objMerge (computedStyle g attributes.style)
              (props.style.getD []))
        ∧ ∀ k, objGet
            ((addSaveProps props blockType attributes g).style.getD []) k
              = optOr (objGet (props.style.getD []) k)
                  (objGet (computedStyle g attributes.style) k))
    ∧ (addSaveProps
        { style := some [("color", StyleValue.leaf (Scalar.str "red"))],
          other := [] }
        { supports := ["color"], attributes := [], getEditWrapperProps := none }
        { style := some
            [("color", StyleValue.node
                [("text", StyleValue.leaf (Scalar.str "blue"))]),
             ("typography", StyleValue.node
                [("lineHeight", StyleValue.leaf (Scalar.str "1.2"))])],
          rest := [] }
        false).style
        = some [("lineHeight", StyleValue.leaf (Scalar.str "1.2")),
                ("color", StyleValue.leaf (Scalar.str "red"))] := by
  constructor
  · intro props blockType attributes g h hnodup
    refine ⟨addSaveProps_style props blockType attributes g h, ?_⟩
    intro k
    rw [addSaveProps_style props blockType attributes g h, Option.getD_some,
      objGet_objMerge _ _ _ hnodup]
  · rfl

/-- Witness for C2: the lookup form at the example's `color` key. -/
theorem claim_C2_witness :
    hasStyleSupport
      { supports := ["color"], attributes := [], getEditWrapperProps := none }
      = true
    ∧ objGet ((addSaveProps
        { style := some [("color", StyleValue.leaf (Scalar.str "red"))],
          other := [] }
        { supports := ["color"], attributes := [], getEditWrapperProps := none }
        { style := none, rest := [] }
        false).style.getD []) "color"
        = optOr (objGet [("color", StyleValue.leaf (Scalar.str "red"))] "color")
            (objGet (computedStyle false none) "color") :=
  ⟨rfl,
    (claim_C2_addSaveProps_precedence.1
      { style := some [("color", StyleValue.leaf (Scalar.str "red"))],
        other := [] }
      { supports := ["color"], attributes := [], getEditWrapperProps := none }
      { style := none, rest := [] }
      false rfl (by decide)).2 "color"⟩

/-- Claim C5: `addAttribute` is idempotent: no style support leaves the
descriptor unchanged, an already-declared `style` attribute is kept
untouched, and otherwise a `style` attribute of declared type `"object"`
is appended exactly once. -/
theorem claim_C5_addAttribute_idempotent (s : BlockType) :
    addAttribute (addAttribute s) = addAttribute s
    ∧ (hasStyleSupport s = false → addAttribute s = s)
    ∧ (hasStyleSupport s = true → containsKey s.attributes "style" = true →
        addAttribute s = s)
    ∧ (hasStyleSupport s = true → containsKey s.attributes "style" = false →
        (addAttribute s).attributes
          = s.attributes ++ [("style", { type := "object" })]) := by
  refine ⟨?_, addAttribute_no_support s, addAttribute_keep s, addAttribute_adds s⟩
  by_cases h : hasStyleSupport s = true
  · by_cases hc : containsKey s.attributes "style" = true
    · rw [addAttribute_keep s h hc, addAttribute_keep s h hc]
    · simp only [Bool.not_eq_true] at hc
      have h2 : hasStyleSupport (addAttribute s) = true := by
        rw [hasStyleSupport_addAttribute]
        exact h
      have hc2 : containsKey (addAttribute s).attributes "style" = true := by
        rw [addAttribute_adds s h hc]
        simp [containsKey, List.any_append]
      exact addAttribute_keep (addAttribute s) h2 hc2
  · simp only [Bool.not_eq_true] at h
    rw [addAttribute_no_support s h, addAttribute_no_support s h]

/-- Witness for C5 at a descriptor with style support and no declared
`style` attribute. -/
theorem claim_C5_witness :
    hasStyleSupport
      { supports := ["lineHeight"], attributes := [("content", { type := "string" })],
        getEditWrapperProps := none } = true
    ∧ containsKey
        [(("content" : String), ({ type := "string" } : AttrDef))] "style" = false
    ∧ (addAttribute
        { supports := ["lineHeight"], attributes := [("content", { type := "string" })],
          getEditWrapperProps := none }).attributes
        = [("content", { type := "string" })] ++ [("style", { type := "object" })] :=
  ⟨rfl, rfl,
    (claim_C5_addAttribute_idempotent
      { supports := ["lineHeight"], attributes := [("content", { type := "string" })],
        getEditWrapperProps := none }).2.2.2 rfl rfl⟩

/-- Claim C10: `addSaveProps` only touches the `style` field of the prop
bag: without style support the bag is returned unchanged, and with style
support every other field keeps its value while `style` is always set to
a defined object. -/
theorem claim_C10_addSaveProps_frame (props : Props) (blockType : BlockType)
    (attributes : BlockAttributes) (g : Bool) :
    (hasStyleSupport blockType = false →
      addSaveProps props blockType attributes g = props)
    ∧ (addSaveProps props blockType attributes g).other = props.other
    ∧ (hasStyleSupport blockType = true →
        ∃ o, (addSaveProps props blockType attributes g).style = some o) :=
  ⟨fun h => addSaveProps_no_support props blockType attributes g h,
   addSaveProps_other props blockType attributes g,
   fun h => ⟨_, addSaveProps_style props blockType attributes g h⟩⟩

/-- Witness for C10 at a support-less and a style-supporting block type. -/
theorem claim_C10_witness :
    (addSaveProps emptyProps
      { supports := [], attributes := [], getEditWrapperProps := none }
      { style := none, rest := [] } false = emptyProps)
    ∧ ∃ o, (addSaveProps emptyProps
        { supports := ["color"], attributes := [], getEditWrapperProps := none }
        { style := none, rest := [] } false).style = some o :=
  ⟨(claim_C10_addSaveProps_frame emptyProps
      { supports := [], attributes := [], getEditWrapperProps := none }
      { style := none, rest := [] } false).1 rfl,
   (claim_C10_addSaveProps_frame emptyProps
      { supports := ["color"], attributes := [], getEditWrapperProps := none }
      { style := none, rest := [] } false).2.2 rfl⟩

/-- Claim C3: with style support, `addEditProps` installs a wrapper whose
output on any attributes is `addSaveProps` applied to the prior
callback's result (the empty bag when there was none); applying
`addEditProps` twice keeps the original callback's contributions — the
non-style fields are untouched and, for every key, the original
callback's `style` entry still wins over the (twice) injected computed
values. -/
theorem claim_C3_addEditProps_wrapping :
    (∀ (s : BlockType) (g : Bool) (attrs : BlockAttributes),
        hasStyleSupport s = true →
        invokeEditWrapperProps (addEditProps s) g attrs
          = addSaveProps (invokeEditWrapperProps s g attrs) s attrs g)
    ∧ (∀ (s : BlockType) (g : Bool) (attrs : BlockAttributes),
        hasStyleSupport s = true →
        (keys ((invokeEditWrapperProps s g attrs).style.getD [])).Nodup →
        (invokeEditWrapperProps (addEditProps (addEditProps s)) g attrs).other
          = (invokeEditWrapperProps s g attrs).other
        ∧ ∀ k, objGet ((invokeEditWrapperProps (addEditProps (addEditProps s))
              g attrs).style.getD []) k
            = optOr (objGet ((invokeEditWrapperProps s g attrs).style.getD []) k)
                (objGet (computedStyle g attrs.style) k)) := by
  refine ⟨invoke_addEditProps, ?_⟩
  intro s g attrs h hnodup
  have h1 : hasStyleSupport (addEditProps s) = true := by
    rw [hasStyleSupport_addEditProps]
    exact h
  have e2 : invokeEditWrapperProps (addEditProps (addEditProps s)) g attrs
      = addSaveProps
          (addSaveProps (invokeEditWrapperProps s g attrs) s attrs g)
          (addEditProps s) attrs g := by
    rw [invoke_addEditProps _ _ _ h1, invoke_addEditProps _ _ _ h]
  have hX : (keys ((addSaveProps (invokeEditWrapperProps s g attrs) s attrs
      g).style.getD [])).Nodup := by
    rw [addSaveProps_style _ _ _ _ h, Option.getD_some]
    exact objMerge_keys_nodup _ _ (computedStyle_keys_nodup g attrs.style)
  constructor
  · rw [e2, addSaveProps_other, addSaveProps_other]
  · intro k
    rw [e2, addSaveProps_style _ _ _ _ h1, Option.getD_some,
      objGet_objMerge _ _ _ hX, addSaveProps_style _ _ _ _ h, Option.getD_some,
      objGet_objMerge _ _ _ hnodup, optOr_absorb]

/-- Witness for C3 at a block type with a pre-existing callback. -/
theorem claim_C3_witness :
    hasStyleSupport
      { supports := ["lineHeight"], attributes := [],
        getEditWrapperProps := some (fun _ _ =>
          { style := some [("padding", StyleValue.leaf (Scalar.str "1"))],
            other := [("tabIndex", StyleValue.leaf (Scalar.num 0))] }) } = true
    ∧ ((invokeEditWrapperProps (addEditProps (addEditProps
          { supports := ["lineHeight"], attributes := [],
            getEditWrapperProps := some (fun _ _ =>
              { style := some [("padding", StyleValue.leaf (Scalar.str "1"))],
                other := [("tabIndex", StyleValue.leaf (Scalar.num 0))] }) }))
          false { style := none, rest := [] }).other
        = (invokeEditWrapperProps
            { supports := ["lineHeight"], attributes := [],
              getEditWrapperProps := some (fun _ _ =>
                { style := some [("padding", StyleValue.leaf (Scalar.str "1"))],
                  other := [("tabIndex", StyleValue.leaf (Scalar.num 0))] }) }
            false { style := none, rest := [] }).other
      ∧ objGet ((invokeEditWrapperProps (addEditProps (addEditProps
            { supports := ["lineHeight"], attributes := [],
              getEditWrapperProps := some (fun _ _ =>
                { style := some [("padding", StyleValue.leaf (Scalar.str "1"))],
                  other := [("tabIndex", StyleValue.leaf (Scalar.num 0))] }) }))
            false { style := none, rest := [] }).style.getD []) "padding"
          = optOr (objGet ((invokeEditWrapperProps
                { supports := ["lineHeight"], attributes := [],
                  getEditWrapperProps := some (fun _ _ =>
                    { style := some [("padding", StyleValue.leaf (Scalar.str "1"))],
                      other := [("tabIndex", StyleValue.leaf (Scalar.num 0))] }) }
                false { style := none, rest := [] }).style.getD []) "padding")
              (objGet (computedStyle false none) "padding")) :=
  ⟨rfl, by
    have hmain := claim_C3_addEditProps_wrapping.2
      { supports := ["lineHeight"], attributes := [],
        getEditWrapperProps := some (fun _ _ =>
          { style := some [("padding", StyleValue.leaf (Scalar.str "1"))],
            other := [("tabIndex", StyleValue.leaf (Scalar.num 0))] }) }
      false { style := none, rest := [] } rfl (by decide)
    exact ⟨hmain.1, hmain.2 "padding"⟩⟩

/-- Claim C6: the global-styles flag decides the output shape of
`addSaveProps` on each call independently: with the flag up the `style`
field is built from the flattened CSS variables, with it down from the
inline styles, and on a concrete input the two calls differ. -/
theorem claim_C6_global_styles_flag :
    (∀ (props : Props) (blockType : BlockType) (attrs : BlockAttributes),
        hasStyleSupport blockType = true →
        (addSaveProps props blockType attrs true).style
          = some (objMerge (getCSSVariablesOpt attrs.style)
              (props.style.getD []))
        ∧ (addSaveProps props blockType attrs false).style
          = some (objMerge (getInlineStylesOpt attrs.style)
              (props.style.getD [])))
    ∧ addSaveProps emptyProps
        { supports := ["color"], attributes := [], getEditWrapperProps := none }
        { style := some [("typography", StyleValue.node
            [("lineHeight", StyleValue.leaf (Scalar.str "2"))])], rest := [] }
        true
      ≠ addSaveProps emptyProps
          { supports := ["color"], attributes := [], getEditWrapperProps := none }
          { style := some [("typography", StyleValue.node
              [("lineHeight", StyleValue.leaf (Scalar.str "2"))])], rest := [] }
          false := by
  constructor
  · intro props blockType attrs h
    constructor
    · simp [addSaveProps, h]
    · simp [addSaveProps, h]
  · intro heq
    have h2 := congrArg Props.style heq
    rw [addSaveProps_style emptyProps
        { supports := ["color"], attributes := [], getEditWrapperProps := none }
        { style := some [("typography", StyleValue.node
            [("lineHeight", StyleValue.leaf (Scalar.str "2"))])], rest := [] }
        true rfl,
      addSaveProps_style emptyProps
        { supports := ["color"], attributes := [], getEditWrapperProps := none }
        { style := some [("typography", StyleValue.node
            [("lineHeight", StyleValue.leaf (Scalar.str "2"))])], rest := [] }
        false rfl] at h2
    have e0 : getCSSVariables [("typography", StyleValue.node
        [("lineHeight", StyleValue.leaf (Scalar.str "2"))])]
        = [("--wp--typography--line-height", StyleValue.leaf (Scalar.str "2"))] := by
      simp only [getCSSVariables, getNestedCSSVariables]
      rfl
    have ecs1 : computedStyle true (some [("typography", StyleValue.node
        [("lineHeight", StyleValue.leaf (Scalar.str "2"))])])
        = getCSSVariables [("typography", StyleValue.node
            [("lineHeight", StyleValue.leaf (Scalar.str "2"))])] := rfl
    have ecs2 : computedStyle false (some [("typography", StyleValue.node
        [("lineHeight", StyleValue.leaf (Scalar.str "2"))])])
        = [("lineHeight", StyleValue.leaf (Scalar.str "2"))] := rfl
    dsimp only at h2
    rw [ecs1, e0, ecs2] at h2
    simp [emptyProps, objMerge_nil] at h2

/-- Witness for C6 at a concrete style-supporting block type. -/
theorem claim_C6_witness :
    hasStyleSupport
      { supports := ["color"], attributes := [], getEditWrapperProps := none }
      = true
    ∧ ((addSaveProps emptyProps
        { supports := ["color"], attributes := [], getEditWrapperProps := none }
        { style := none, rest := [] } true).style
        = some (objMerge (getCSSVariablesOpt none) (emptyProps.style.getD []))
      ∧ (addSaveProps emptyProps
          { supports := ["color"], attributes := [], getEditWrapperProps := none }
          { style := none, rest := [] } false).style
          = some (objMerge (getInlineStylesOpt none) (emptyProps.style.getD []))) :=
  ⟨rfl, claim_C6_global_styles_flag.1 emptyProps
    { supports := ["color"], attributes := [], getEditWrapperProps := none }
    { style := none, rest := [] } rfl⟩

/-- Claim C9: all pipeline operations handle missing optional inputs by
defaults: an absent style argument acts as the empty config for both
converters, `addSaveProps` still produces a defined `style` when the
attributes carry none, and the wrapper installed by `addEditProps`
starts from the empty prop bag when no prior callback existed. -/
theorem claim_C9_defaults :
    getCSSVariablesOpt none = getCSSVariables []
    ∧ getInlineStylesOpt none = getInlineStyles []
    ∧ (∀ (props : Props) (bt : BlockType) (attrs : BlockAttributes) (g : Bool),
        hasStyleSupport bt = true → attrs.style = none →
        (addSaveProps props bt attrs g).style
          = some (objMerge (computedStyle g none) (props.style.getD [])))
    ∧ (∀ (s : BlockType) (g : Bool) (attrs : BlockAttributes),
        hasStyleSupport s = true → s.getEditWrapperProps = none →
        invokeEditWrapperProps (addEditProps s) g attrs
          = addSaveProps emptyProps s attrs g) := by
  refine ⟨rfl, rfl, ?_, ?_⟩
  · intro props bt attrs g h hstyle
    rw [addSaveProps_style _ _ _ _ h, hstyle]
  · intro s g attrs h hnone
    rw [invoke_addEditProps _ _ _ h]
    simp [invokeEditWrapperProps, hnone]

/-- Witness for C9 at a callback-less block type and style-less
attributes. -/
theorem claim_C9_witness :
    ((addSaveProps emptyProps
        { supports := ["color"], attributes := [], getEditWrapperProps := none }
        { style := none, rest := [] } false).style
      = some (objMerge (computedStyle false none) (emptyProps.style.getD [])))
    ∧ invokeEditWrapperProps (addEditProps
        { supports := ["color"], attributes := [], getEditWrapperProps := none })
        false { style := none, rest := [] }
      = addSaveProps emptyProps
          { supports := ["color"], attributes := [], getEditWrapperProps := none }
          { style := none, rest := [] } false :=
  ⟨claim_C9_defaults.2.2.1 emptyProps
      { supports := ["color"], attributes := [], getEditWrapperProps := none }
      { style := none, rest := [] } false rfl rfl,
   claim_C9_defaults.2.2.2
      { supports := ["color"], attributes := [], getEditWrapperProps := none }
      false { style := none, rest := [] } rfl rfl⟩

end StyleHooks
